import Mathlib

/-!
Verification of the word-to-pdf conversion module
(`src/app/word-to-pdf/actions.ts`).

The development shallowly embeds the logic of the module:

* the static font catalog `FONT_CONFIG` and the `FontManager` class
  (font loading at construction, `getBestFontForText` selection);
* the orchestrator `convertWordToPdfAction` (input validation, text
  extraction, error funnelling through its `try`/`catch`);
* the per-image renderer `processImages`.

External collaborators (base64 decoding, the `mammoth` extractor, the
filesystem holding the font files, the PDFKit image embedder) are modelled
as parameters (`ConvEnv`, the `load` argument, the `embed` argument), so
every theorem is quantified over their behaviour.

Numeric note: the source compares `supportedChars / textCodePoints.length
> 0.8` with JavaScript doubles.  For every `total < 2 ^ 49` the double
comparison agrees with the exact rational comparison `5 * supported >
4 * total` (the quotient of two small naturals rounds to a double within
half an ulp, and the excess of any rational strictly above 4/5 is at
least `1 / (5 * total)`, far above that rounding error); for
`total = 0` the source computes `0 / 0 = NaN` and `NaN > 0.8` is
`false`, which also agrees with `5 * 0 > 4 * 0 = false`.  The embedding
therefore uses the natural-number comparison.
-/

/-- Font descriptor of the static catalog: mirrors one entry of
`FONT_CONFIG` in `actions.ts` (lines 20-54).  Unicode ranges are
inclusive `[start, end]` code-point intervals. -/
structure FontCfg where
  name : String
  file : String
  description : String
  unicodeRanges : List (Nat × Nat)
deriving Repr, DecidableEq

/-- The static font catalog `FONT_CONFIG` (`actions.ts` lines 20-54),
transcribed range for range. -/
def FONT_CONFIG : List FontCfg :=
  [ { name := "NotoSansSC"
      file := "NotoSansSC-VariableFont_wght.ttf"
      description := "Chinese Simplified"
      unicodeRanges :=
        [ (0x4E00, 0x9FFF)    -- CJK Unified Ideographs
        , (0x3400, 0x4DBF)    -- CJK Extension A
        , (0x20000, 0x2A6DF)  -- CJK Extension B
        , (0x2A700, 0x2B73F)  -- CJK Extension C
        , (0x2B740, 0x2B81F)  -- CJK Extension D
        , (0x2B820, 0x2CEAF)  -- CJK Extension E
        , (0x2CEB0, 0x2EBEF)  -- CJK Extension F
        , (0x3000, 0x303F)    -- CJK Symbols and Punctuation
        , (0xFF00, 0xFFEF)    -- Halfwidth and Fullwidth Forms
        ] }
  , { name := "DejaVuSans"
      file := "DejaVuSans.ttf"
      description := "Latin, Cyrillic, Greek"
      unicodeRanges :=
        [ (0x0000, 0x007F)    -- Basic Latin
        , (0x0080, 0x00FF)    -- Latin-1 Supplement
        , (0x0100, 0x017F)    -- Latin Extended-A
        , (0x0180, 0x024F)    -- Latin Extended-B
        , (0x0370, 0x03FF)    -- Greek and Coptic
        , (0x0400, 0x04FF)    -- Cyrillic
        , (0x0500, 0x052F)    -- Cyrillic Supplement
        , (0x1E00, 0x1EFF)    -- Latin Extended Additional
        , (0x2000, 0x206F)    -- General Punctuation
        , (0x20A0, 0x20CF)    -- Currency Symbols
        ] }
  ]

/-- Bytes of a loaded font file (a `Buffer` in the source). -/
abbrev FontBytes := List Nat

/-- State of the `FontManager` class after construction: the
`loadedFonts` map (name to bytes, in insertion order) and the
`fontPriority` list (`actions.ts` lines 56-58). -/
structure FontManager where
  loadedFonts : List (String × FontBytes)
  fontPriority : List String
deriving Repr, DecidableEq

/-- One pass of `FontManager.loadAvailableFonts` (`actions.ts` lines
64-86) over a catalog suffix.  `load file = some bytes` models a font
file that exists and is read successfully; `none` models a missing file
or a read error (both are skipped: the `else` branch and the per-font
`catch`).  Loaded fonts and priority names keep catalog order. -/
def loadAvailableFonts (load : String → Option FontBytes) : List FontCfg → FontManager
  | [] => { loadedFonts := [], fontPriority := [] }
  | cfg :: rest =>
    match load cfg.file with
    | some bytes =>
      { loadedFonts := (cfg.name, bytes) :: (loadAvailableFonts load rest).loadedFonts
        fontPriority := cfg.name :: (loadAvailableFonts load rest).fontPriority }
    | none => loadAvailableFonts load rest

/-- The `FontManager` constructor: load every catalog font that the
filesystem provides (`actions.ts` lines 60-62). -/
def fontManagerOf (load : String → Option FontBytes) : FontManager :=
  loadAvailableFonts load FONT_CONFIG

/-- Direct transcription of `FontManager.isCodePointSupported`
(`actions.ts` lines 120-122): the code point lies in some declared
inclusive range. -/
def isCodePointSupported (codePoint : Nat) (ranges : List (Nat × Nat)) : Bool :=
  ranges.any fun r => decide (r.1 ≤ codePoint ∧ codePoint ≤ r.2)

/-- The code-point sequence of a text: `Array.from(text).map(c =>
c.codePointAt(0) || 0)` (`actions.ts` line 94).  Lean strings are
sequences of Unicode scalar values, exactly what `Array.from` yields. -/
def textCodePoints (text : String) : List Nat :=
  text.data.map Char.toNat

/-- Number of code points of the text supported by the ranges: the
counting loop of `actions.ts` lines 102-107. -/
def supportedChars (cps : List Nat) (ranges : List (Nat × Nat)) : Nat :=
  cps.countP fun cp => isCodePointSupported cp ranges

/-- The threshold test of the source, `supportedChars / textCodePoints.length
> 0.8` (`actions.ts` line 110), as the exact comparison `5 * supported >
4 * total`.  This equals the JavaScript double comparison for every
`total < 2 ^ 49`, including `total = 0` where the source divides `0 / 0`
to `NaN` and `NaN > 0.8` is `false`. -/
def coverageExceeds80 (supported total : Nat) : Bool :=
  decide (4 * total < 5 * supported)

/-- The font-priority loop of `getBestFontForText` (`actions.ts` lines
97-113): walk the priority names in order; a name with no catalog entry
is skipped (`continue`); the first name whose catalog entry clears the
80% threshold is returned. -/
def findClearingFont (cps : List Nat) : List String → Option String
  | [] => none
  | fontName :: rest =>
    match FONT_CONFIG.find? (fun f => f.name == fontName) with
    | none => findClearingFont cps rest
    | some fontConfig =>
      if coverageExceeds80 (supportedChars cps fontConfig.unicodeRanges) cps.length then
        some fontName
      else
        findClearingFont cps rest

/-- Transcription of `FontManager.getBestFontForText` (`actions.ts`
lines 88-118).  Result `none` is the `null` sentinel ("use the PDFKit
default font").  If the loop commits to a font name the source returns
`this.loadedFonts.get(fontName) || null`, i.e. the map lookup collapsed
to `null` when absent — `List.lookup` directly.  The fallback mirrors
`firstFont ? this.loadedFonts.get(firstFont) || null : null`, including
the JavaScript falsiness of an empty-string name. -/
def getBestFontForText (fm : FontManager) (text : String) : Option FontBytes :=
  if fm.loadedFonts.isEmpty then
    none
  else
    let cps := textCodePoints text
    match findClearingFont cps fm.fontPriority with
    | some fontName => fm.loadedFonts.lookup fontName
    | none =>
      match fm.fontPriority with
      | [] => none
      | firstFont :: _ =>
        if firstFont == "" then none else fm.loadedFonts.lookup firstFont

/-- Transcription of `FontManager.getAvailableFonts` (`actions.ts`
lines 124-126). -/
def getAvailableFonts (fm : FontManager) : List String :=
  fm.loadedFonts.map Prod.fst

/-- Whitespace in the sense of the JavaScript `String.prototype.trim`:
the `WhiteSpace` production (tab, vertical tab, form feed, space,
no-break space, BOM, the Unicode `Zs` category) together with the
`LineTerminator` production (LF, CR, LS, PS). -/
def jsIsWhitespace (c : Char) : Bool :=
  c.toNat ∈ [0x9, 0xA, 0xB, 0xC, 0xD, 0x20, 0xA0, 0x1680,
    0x2000, 0x2001, 0x2002, 0x2003, 0x2004, 0x2005, 0x2006, 0x2007,
    0x2008, 0x2009, 0x200A, 0x2028, 0x2029, 0x202F, 0x205F, 0x3000, 0xFEFF]

/-- The guard `!textContent.trim()` of `actions.ts` line 151:
`trim()` yields the empty (falsy) string exactly when every character of
the text is JavaScript whitespace. -/
def trimIsEmpty (s : String) : Bool :=
  s.data.all jsIsWhitespace

/-- Occurrence of `pat` as a contiguous run inside a character list:
the JavaScript `String.prototype.includes`. -/
def charsInclude (pat : List Char) : List Char → Bool
  | [] => pat.isEmpty
  | c :: rest => pat.isPrefixOf (c :: rest) || charsInclude pat rest

/-- The JavaScript `e.message.includes(pat)` (`actions.ts` line 205). -/
def stringIncludes (s pat : String) : Bool :=
  charsInclude pat.data s.data

/-- Input of `convertWordToPdfAction` (`actions.ts` lines 9-12). -/
structure ConvertWordToPdfInput where
  docxFileBase64 : String
  originalFileName : String
deriving Repr, DecidableEq

/-- Output of `convertWordToPdfAction` (`actions.ts` lines 14-17):
each field is optional in the TypeScript interface. -/
structure ConvertWordToPdfOutput where
  pdfDataUri : Option String
  error : Option String
deriving Repr, DecidableEq

/-- An embedded image extracted by the `convertToHtml` image callback
(`actions.ts` lines 156-164). -/
structure ExtractedImage where
  buffer : List Nat
  contentType : String
deriving Repr, DecidableEq

/-- Settlement of the promise returned by the async
`convertWordToPdfAction`: the caller either sees a resolved output or a
promise rejection.  The rejection constructor exists because lines
186-200 of `actions.ts` call `reject(...)` on a PDFKit stream error —
the embedding shows that this point is never reached. -/
inductive ConvOutcome where
  | resolved : ConvertWordToPdfOutput → ConvOutcome
  | rejected : String → ConvOutcome
deriving Repr, DecidableEq

/-- Behaviour of the external collaborators of the orchestrator:
`Buffer.from(-, "base64")` (never throws; may yield an empty buffer),
the filesystem feeding `FontManager` construction, and the two
`mammoth` entry points, each of which may reject with an error message
(`Except.error`). -/
structure ConvEnv where
  decodeBase64 : String → List Nat
  load : String → Option FontBytes
  extractRawText : List Nat → Except String String
  extractImages : List Nat → Except String (List ExtractedImage)

/-- The `try` block of `convertWordToPdfAction` (`actions.ts` lines
136-200), as an `Except` computation whose `error` is a thrown
message of a thrown exception, caught by the `catch` of lines 202-209.

After extracting text and images the source executes
`await this.processTextWithFonts(pdfDoc, textContent, fontManager)`
(line 179).  `convertWordToPdfAction` is a plain module-level function
of an ES module, so `this` is `undefined` there, and the member access
throws `TypeError: Cannot read properties of undefined (reading
processTextWithFonts)`.  Every execution that reaches line 179
therefore jumps to the `catch`; lines 182-200 (image pages, stream
finalization, the `resolve`/`reject` pair) are unreachable. -/
def convertTryBody (env : ConvEnv) (input : ConvertWordToPdfInput) :
    Except String ConvertWordToPdfOutput :=
  let docxFileBuffer := env.decodeBase64 input.docxFileBase64
  if docxFileBuffer.length = 0 then
    .ok { pdfDataUri := none
          error := some "Empty DOCX file data received after base64 decoding." }
  else
    -- line 144: `new FontManager()` — constructed, observationally inert here
    match env.extractRawText docxFileBuffer with
    | .error e => .error e        -- `await` of a rejected promise rethrows
    | .ok textContent =>
      if trimIsEmpty textContent then
        .ok { pdfDataUri := none
              error := some "No text content found in the document." }
      else
        match env.extractImages docxFileBuffer with
        | .error e => .error e
        | .ok _images =>
          -- `await this.processTextWithFonts(...)` (line 179): `this` is
          -- `undefined`, the member access throws, and nothing after
          -- line 179 runs.
          .error "Cannot read properties of undefined (reading \x27processTextWithFonts\x27)"

/-- Transcription of `convertWordToPdfAction` (`actions.ts` lines
129-210): the falsy-input guard of line 130, then the `try` body, with
every thrown message rewritten by the `catch` of lines 202-209
(special-cased when the parser reports an unrecognised Office Open XML
structure). -/
def convertWordToPdfAction (env : ConvEnv) (input : ConvertWordToPdfInput) : ConvOutcome :=
  if input.docxFileBase64 == "" then
    .resolved { pdfDataUri := none
                error := some "No DOCX file data provided for conversion." }
  else
    match convertTryBody env input with
    | .ok output => .resolved output
    | .error msg =>
      let errorMessage :=
        if stringIncludes msg "Unrecognised Office Open XML" then
          "The uploaded file does not appear to be a valid .docx file or is corrupted."
        else
          "Failed to convert Word document. " ++ msg
      .resolved { pdfDataUri := none, error := some errorMessage }

/-- Content drawn onto a PDF page by `processImages`: either an
embedded raster image, or a text run rendered at the current font and
size. -/
inductive PdfItem where
  | imageItem : List Nat → PdfItem
  | textItem : Option FontBytes → Nat → String → PdfItem
deriving Repr, DecidableEq

/-- A PDF page is the sequence of items drawn on it. -/
abbrev PdfPage := List PdfItem

/-- The PDFKit document as `processImages` observes it: the page list
plus the current-font and font-size registers set by `pdfDoc.font` and
`pdfDoc.fontSize`. -/
structure PdfState where
  pages : List PdfPage
  currentFont : Option FontBytes
  currentFontSize : Nat
deriving Repr, DecidableEq

/-- Apply a function to the last page of the document — how
`pdfDoc.text` and `pdfDoc.image` write to the current page.  (PDFKit
has no page at all only before the first `addPage`; every use below is
preceded by one, so the `[]` case is inert.) -/
def modifyLastPage (f : PdfPage → PdfPage) : List PdfPage → List PdfPage
  | [] => []
  | [p] => [f p]
  | p :: rest => p :: modifyLastPage f rest

/-- `pdfDoc.addPage()`: append a fresh empty page. -/
def PdfState.addPage (st : PdfState) : PdfState :=
  { st with pages := st.pages ++ [[]] }

/-- `pdfDoc.font(buffer)` / `pdfDoc.font("Helvetica")`: set the current
font register; `none` stands for the built-in default. -/
def PdfState.setFont (st : PdfState) (font : Option FontBytes) : PdfState :=
  { st with currentFont := font }

/-- `pdfDoc.fontSize(n)`. -/
def PdfState.setFontSize (st : PdfState) (n : Nat) : PdfState :=
  { st with currentFontSize := n }

/-- `pdfDoc.text(s, ...)`: draw a text run on the current page with the
current font and size. -/
def PdfState.drawText (st : PdfState) (s : String) : PdfState :=
  { st with pages := modifyLastPage (fun p => p ++ [.textItem st.currentFont st.currentFontSize s]) st.pages }

/-- `pdfDoc.image(buffer, ...)`: draw an image on the current page. -/
def PdfState.drawImage (st : PdfState) (buffer : List Nat) : PdfState :=
  { st with pages := modifyLastPage (fun p => p ++ [.imageItem buffer]) st.pages }

/-- One iteration of the `processImages` loop (`actions.ts` lines
256-295): new page; JPEG/PNG content is embedded via `pdfDoc.image`
(whose failure, `embed img.buffer = .error msg`, is caught by the
per-image `catch` and degraded to an inline placeholder line); any
other content type gets the `[Unsupported image type: ...]` placeholder
line, font-selected like ordinary text. -/
def processOneImage (embed : List Nat → Except String Unit) (fm : FontManager)
    (st : PdfState) (img : ExtractedImage) : PdfState :=
  let st := st.addPage
  if img.contentType == "image/jpeg" || img.contentType == "image/png" then
    match embed img.buffer with
    | .ok _ => st.drawImage img.buffer
    | .error msg =>
      let errorText := "[Error embedding image: " ++ msg ++ "]"
      let fontBuffer := getBestFontForText fm errorText
      (((st.setFont fontBuffer).setFontSize 10).drawText errorText)
  else
    let errorText := "[Unsupported image type: " ++ img.contentType ++ "]"
    let fontBuffer := getBestFontForText fm errorText
    (((st.setFont fontBuffer).setFontSize 10).drawText errorText)

/-- Transcription of `processImages` (`actions.ts` lines 255-296): the
per-image loop.  `embed` models the PDFKit `pdfDoc.image` call, the one
operation of the loop body that can throw. -/
def processImages (embed : List Nat → Except String Unit) (fm : FontManager)
    (st : PdfState) (images : List ExtractedImage) : PdfState :=
  images.foldl (processOneImage embed fm) st

/-!
Spec-side definitions.  These restate, in the vocabulary of the spec,
the quantities the claims talk about; the theorems connect them to the
embedded code.
-/

/-- Coverage fraction in the sense of the spec: the proportion of the
code points of the text falling within the declared Unicode ranges of
the font, as an
exact rational. -/
def coverageFraction (cfg : FontCfg) (text : String) : ℚ :=
  (supportedChars (textCodePoints text) cfg.unicodeRanges : ℚ) /
    ((textCodePoints text).length : ℚ)

/-- The decision the priority loop makes for one font name, as a
boolean: the name resolves in the catalog and its coverage clears the
80% threshold.  (A name absent from the catalog is `continue`d past,
which this encodes as `false`.) -/
def clearsBool (fontName : String) (cps : List Nat) : Bool :=
  match FONT_CONFIG.find? (fun f => f.name == fontName) with
  | some cfg => coverageExceeds80 (supportedChars cps cfg.unicodeRanges) cps.length
  | none => false

/-- Spec-side clearing predicate: the font name resolves in the catalog
and its coverage fraction strictly exceeds 0.8. -/
def clearsThreshold (fontName : String) (text : String) : Prop :=
  ∃ cfg, FONT_CONFIG.find? (fun f => f.name == fontName) = some cfg ∧
    coverageFraction cfg text > 0.8

/-- Page that one loop iteration of `processImages` produces, read off
from the three branches of the source. -/
def pageForImage (embed : List Nat → Except String Unit) (fm : FontManager)
    (img : ExtractedImage) : PdfPage :=
  if img.contentType == "image/jpeg" || img.contentType == "image/png" then
    match embed img.buffer with
    | .ok _ => [.imageItem img.buffer]
    | .error msg =>
      [.textItem (getBestFontForText fm ("[Error embedding image: " ++ msg ++ "]")) 10
        ("[Error embedding image: " ++ msg ++ "]")]
  else
    [.textItem (getBestFontForText fm ("[Unsupported image type: " ++ img.contentType ++ "]")) 10
      ("[Unsupported image type: " ++ img.contentType ++ "]")]

/-- The messages the orchestrator emits for the spec category `EmptyInput`
error category: the falsy-input guard of `actions.ts` line 131 and the
decoded-empty guard of line 140. -/
def emptyInputMessages : List String :=
  ["No DOCX file data provided for conversion.",
   "Empty DOCX file data received after base64 decoding."]

/-!
Concrete environments used by the witnesses.
-/

/-- Filesystem on which every catalog font file loads; the bytes of a
font are the singleton of its file-name length, so the two catalog
fonts get distinct bytes. -/
def loadAllFonts : String → Option FontBytes := fun file => some [file.length]

/-- Filesystem on which no font file is present. -/
def loadNoFonts : String → Option FontBytes := fun _ => none

/-- Environment whose decoder yields zero bytes for every payload. -/
def envEmptyDecode : ConvEnv :=
  { decodeBase64 := fun _ => []
    load := loadNoFonts
    extractRawText := fun _ => .ok ""
    extractImages := fun _ => .ok [] }

/-- Environment for an image-only document: decoding succeeds but the
extractor finds only whitespace text. -/
def envWhitespaceText : ConvEnv :=
  { decodeBase64 := fun _ => [80, 75]
    load := loadAllFonts
    extractRawText := fun _ => .ok "  \n  "
    extractImages := fun _ => .ok [] }

/-- Environment for a well-formed ASCII-only document with no images. -/
def envAsciiDoc : ConvEnv :=
  { decodeBase64 := fun _ => [80, 75]
    load := loadAllFonts
    extractRawText := fun _ => .ok "Hello World"
    extractImages := fun _ => .ok [] }

/-- A BMP image as the extractor would report it. -/
def bmpImage : ExtractedImage := { buffer := [66, 77], contentType := "image/bmp" }

/-- The PDF document as `processImages` receives it in a conversion:
pages already written, default font registers. -/
def initialPdfState : PdfState :=
  { pages := [[]], currentFont := none, currentFontSize := 12 }

/-!
Helper lemmas about `FontManager` construction and the selection loop.
-/

theorem lookup_isSome_of_mem_priority (load : String → Option FontBytes)
    (cfgs : List FontCfg) (n : String)
    (h : n ∈ (loadAvailableFonts load cfgs).fontPriority) :
    ((loadAvailableFonts load cfgs).loadedFonts.lookup n).isSome := by
  induction cfgs with
  | nil => simp [loadAvailableFonts] at h
  | cons cfg rest ih =>
    cases hl : load cfg.file with
    | none =>
      simp only [loadAvailableFonts, hl] at h ⊢
      exact ih h
    | some bytes =>
      simp only [loadAvailableFonts, hl, List.mem_cons] at h ⊢
      rcases h with h | h
      · subst h
        simp [List.lookup]
      · by_cases hbeq : n == cfg.name
        · simp [List.lookup, hbeq]
        · simp only [List.lookup, hbeq]
          exact ih h

theorem mem_priority_exists_cfg (load : String → Option FontBytes)
    (cfgs : List FontCfg) (n : String)
    (h : n ∈ (loadAvailableFonts load cfgs).fontPriority) :
    ∃ cfg ∈ cfgs, cfg.name = n := by
  induction cfgs with
  | nil => simp [loadAvailableFonts] at h
  | cons cfg rest ih =>
    cases hl : load cfg.file with
    | none =>
      simp only [loadAvailableFonts, hl] at h
      obtain ⟨c, hc, hn⟩ := ih h
      exact ⟨c, List.mem_cons_of_mem _ hc, hn⟩
    | some bytes =>
      simp only [loadAvailableFonts, hl, List.mem_cons] at h
      rcases h with h | h
      · exact ⟨cfg, List.mem_cons_self _ _, h.symm⟩
      · obtain ⟨c, hc, hn⟩ := ih h
        exact ⟨c, List.mem_cons_of_mem _ hc, hn⟩

theorem priority_name_ne_empty (load : String → Option FontBytes) (n : String)
    (h : n ∈ (fontManagerOf load).fontPriority) : n ≠ "" := by
  obtain ⟨cfg, hc, hn⟩ := mem_priority_exists_cfg load FONT_CONFIG n h
  subst hn
  simp only [FONT_CONFIG, List.mem_cons, List.mem_singleton] at hc
  rcases hc with rfl | rfl | hc
  · decide
  · decide
  · simp at hc

theorem loadedFonts_mem_catalog (load : String → Option FontBytes)
    (cfgs : List FontCfg) (entry : String × FontBytes)
    (h : entry ∈ (loadAvailableFonts load cfgs).loadedFonts) :
    ∃ cfg ∈ cfgs, cfg.name = entry.1 ∧ load cfg.file = some entry.2 := by
  induction cfgs with
  | nil => simp [loadAvailableFonts] at h
  | cons cfg rest ih =>
    cases hl : load cfg.file with
    | none =>
      simp only [loadAvailableFonts, hl] at h
      obtain ⟨c, hc, hn, hb⟩ := ih h
      exact ⟨c, List.mem_cons_of_mem _ hc, hn, hb⟩
    | some bytes =>
      simp only [loadAvailableFonts, hl, List.mem_cons] at h
      rcases h with h | h
      · subst h
        exact ⟨cfg, List.mem_cons_self _ _, rfl, hl⟩
      · obtain ⟨c, hc, hn, hb⟩ := ih h
        exact ⟨c, List.mem_cons_of_mem _ hc, hn, hb⟩

theorem lookup_mem {n : String} {b : FontBytes} :
    ∀ {l : List (String × FontBytes)}, l.lookup n = some b → (n, b) ∈ l := by
  intro l
  induction l with
  | nil => intro h; simp [List.lookup] at h
  | cons kv rest ih =>
    intro h
    obtain ⟨k, v⟩ := kv
    by_cases hbeq : n == k
    · simp only [List.lookup, hbeq] at h
      obtain rfl := Option.some.inj h
      have : n = k := eq_of_beq hbeq
      subst this
      exact List.mem_cons_self _ _
    · simp only [List.lookup, hbeq] at h
      exact List.mem_cons_of_mem _ (ih h)

theorem findClearingFont_eq_find? (cps : List Nat) (names : List String) :
    findClearingFont cps names = names.find? (fun n => clearsBool n cps) := by
  induction names with
  | nil => rfl
  | cons n rest ih =>
    have hcl : clearsBool n cps =
        match FONT_CONFIG.find? (fun f => f.name == n) with
        | some cfg => coverageExceeds80 (supportedChars cps cfg.unicodeRanges) cps.length
        | none => false := rfl
    cases hf : FONT_CONFIG.find? (fun f => f.name == n) with
    | none =>
      rw [hf] at hcl
      simp only [findClearingFont, hf, ih]
      rw [List.find?_cons_of_neg _ (by simp [hcl])]
    | some cfg =>
      rw [hf] at hcl
      cases hc : coverageExceeds80 (supportedChars cps cfg.unicodeRanges) cps.length with
      | true =>
        simp only [findClearingFont, hf, hc, if_true]
        rw [List.find?_cons_of_pos _ (by simp [hcl, hc])]
      | false =>
        simp only [findClearingFont, hf, hc, Bool.false_eq_true, if_false, ih]
        rw [List.find?_cons_of_neg _ (by simp [hcl, hc])]

theorem findClearingFont_eq_some (cps : List Nat) (p₁ p₂ : List String) (fontName : String)
    (h₁ : ∀ m ∈ p₁, clearsBool m cps = false) (h₂ : clearsBool fontName cps = true) :
    findClearingFont cps (p₁ ++ fontName :: p₂) = some fontName := by
  rw [findClearingFont_eq_find?]
  induction p₁ with
  | nil => exact List.find?_cons_of_pos _ (by simp [h₂])
  | cons m rest ih =>
    rw [List.cons_append, List.find?_cons_of_neg _ (by simp [h₁ m (List.mem_cons_self _ _)])]
    exact ih fun x hx => h₁ x (List.mem_cons_of_mem _ hx)

theorem findClearingFont_eq_none (cps : List Nat) (names : List String)
    (h : ∀ m ∈ names, clearsBool m cps = false) :
    findClearingFont cps names = none := by
  rw [findClearingFont_eq_find?]
  exact List.find?_eq_none.mpr fun x hx => by simp [h x hx]

theorem findClearingFont_nil_cps (names : List String) :
    findClearingFont [] names = none := by
  apply findClearingFont_eq_none
  intro m _
  cases hf : FONT_CONFIG.find? (fun f => f.name == m) with
  | none => simp [clearsBool, hf]
  | some cfg => simp [clearsBool, hf, supportedChars, coverageExceeds80]

theorem coverage_gt_iff (s t : Nat) (ht : 0 < t) :
    ((s : ℚ) / (t : ℚ) > 0.8) ↔ coverageExceeds80 s t = true := by
  have htq : (0 : ℚ) < (t : ℚ) := by exact_mod_cast ht
  rw [coverageExceeds80, decide_eq_true_iff]
  rw [gt_iff_lt, show (0.8 : ℚ) = 4 / 5 by norm_num]
  rw [div_lt_div_iff₀ (by norm_num) htq]
  constructor
  · intro hlt
    have h5 : (4 : ℚ) * t < 5 * s := by linarith
    exact_mod_cast h5
  · intro hlt
    have h5 : (4 : ℚ) * t < 5 * s := by exact_mod_cast hlt
    linarith

theorem textCodePoints_length_pos (text : String) (h : text ≠ "") :
    0 < (textCodePoints text).length := by
  rcases text with ⟨data⟩
  cases data with
  | nil => exact absurd rfl h
  | cons c cs => simp [textCodePoints]

theorem clearsThreshold_iff (fontName : String) (text : String) (h : text ≠ "") :
    clearsThreshold fontName text ↔ clearsBool fontName (textCodePoints text) = true := by
  have ht := textCodePoints_length_pos text h
  cases hf : FONT_CONFIG.find? (fun f => f.name == fontName) with
  | none => simp [clearsThreshold, clearsBool, hf]
  | some cfg =>
    simp only [clearsThreshold, clearsBool, hf, Option.some.injEq]
    constructor
    · rintro ⟨c, rfl, hc⟩
      exact (coverage_gt_iff _ _ ht).mp hc
    · intro hc
      exact ⟨cfg, rfl, (coverage_gt_iff _ _ ht).mpr hc⟩

theorem isEmpty_false_of_lookup_isSome (fm : FontManager) (n : String)
    (h : (fm.loadedFonts.lookup n).isSome) : fm.loadedFonts.isEmpty = false := by
  cases hl : fm.loadedFonts with
  | nil => rw [hl] at h; simp [List.lookup] at h
  | cons a l => rfl

theorem getBest_fallback (load : String → Option FontBytes) (text : String)
    (hfind : findClearingFont (textCodePoints text) (fontManagerOf load).fontPriority = none) :
    ((fontManagerOf load).loadedFonts = [] →
      getBestFontForText (fontManagerOf load) text = none) ∧
    (∀ firstFont rest, (fontManagerOf load).fontPriority = firstFont :: rest →
      ∃ bytes, (fontManagerOf load).loadedFonts.lookup firstFont = some bytes ∧
        getBestFontForText (fontManagerOf load) text = some bytes) := by
  constructor
  · intro h0
    simp [getBestFontForText, h0]
  · intro firstFont rest hprio
    have hmem : firstFont ∈ (fontManagerOf load).fontPriority := by
      rw [hprio]; exact List.mem_cons_self _ _
    have hsome := lookup_isSome_of_mem_priority load FONT_CONFIG firstFont hmem
    obtain ⟨bytes, hbytes⟩ := Option.isSome_iff_exists.mp hsome
    refine ⟨bytes, hbytes, ?_⟩
    have hempty : (fontManagerOf load).loadedFonts.isEmpty = false :=
      isEmpty_false_of_lookup_isSome _ _ hsome
    have hne : firstFont ≠ "" := priority_name_ne_empty load firstFont hmem
    rw [hprio] at hfind
    simp only [getBestFontForText, hempty, Bool.false_eq_true, if_false, hprio, hfind]
    rw [if_neg (by simpa using hne)]
    exact hbytes

/-!
Claim theorems for the font-selection component.
-/

/-- Claim C3: for every non-empty text and non-empty loaded-font set,
`getBestFontForText` returns the first font in priority order whose
coverage fraction strictly exceeds 0.8, regardless of how well later
fonts cover the text: if the priority list splits as `p₁ ++ fontName ::
p₂` where nothing in `p₁` clears the threshold and `fontName` does,
then the selection is exactly the loaded bytes of `fontName`. -/
theorem c3_greedy_first_match (load : String → Option FontBytes) (text : String)
    (p₁ p₂ : List String) (fontName : String)
    (htext : text ≠ "")
    (hsplit : (fontManagerOf load).fontPriority = p₁ ++ fontName :: p₂)
    (hbefore : ∀ m ∈ p₁, ¬ clearsThreshold m text)
    (hclears : clearsThreshold fontName text) :
    ∃ bytes, (fontManagerOf load).loadedFonts.lookup fontName = some bytes ∧
      getBestFontForText (fontManagerOf load) text = some bytes := by
  have hb : clearsBool fontName (textCodePoints text) = true :=
    (clearsThreshold_iff fontName text htext).mp hclears
  have hbef : ∀ m ∈ p₁, clearsBool m (textCodePoints text) = false := by
    intro m hm
    cases hcb : clearsBool m (textCodePoints text) with
    | false => rfl
    | true => exact absurd ((clearsThreshold_iff m text htext).mpr hcb) (hbefore m hm)
  have hfind : findClearingFont (textCodePoints text) (fontManagerOf load).fontPriority
      = some fontName := by
    rw [hsplit]
    exact findClearingFont_eq_some _ _ _ _ hbef hb
  have hmem : fontName ∈ (fontManagerOf load).fontPriority := by
    rw [hsplit]
    exact List.mem_append_right _ (List.mem_cons_self _ _)
  have hsome := lookup_isSome_of_mem_priority load FONT_CONFIG fontName hmem
  obtain ⟨bytes, hbytes⟩ := Option.isSome_iff_exists.mp hsome
  have hempty : (fontManagerOf load).loadedFonts.isEmpty = false :=
    isEmpty_false_of_lookup_isSome (fontManagerOf load) fontName hsome
  refine ⟨bytes, hbytes, ?_⟩
  simp only [getBestFontForText, hempty, Bool.false_eq_true, if_false, hfind]
  exact hbytes

/-- Concrete instance of C3, the spec scenario: a ten-code-point
paragraph of nine CJK ideographs and one Latin period, with both
catalog fonts loaded and the CJK font first in priority, selects the
CJK font (coverage 9/10 > 0.8). -/
theorem c3_greedy_first_match_witness :
    ∃ bytes, (fontManagerOf loadAllFonts).loadedFonts.lookup "NotoSansSC" = some bytes ∧
      getBestFontForText (fontManagerOf loadAllFonts) "一二三四五六七八九." = some bytes :=
  c3_greedy_first_match loadAllFonts "一二三四五六七八九." [] ["DejaVuSans"] "NotoSansSC"
    (by decide) rfl (by simp)
    ((clearsThreshold_iff "NotoSansSC" "一二三四五六七八九." (by decide)).mpr (by decide))

/-- Claim C4: for every non-empty text for which no loaded font clears
the 0.8 coverage threshold, the selection falls back to the first
loaded font when one exists, and to the `null` sentinel when no fonts
were loaded at all. -/
theorem c4_fallback_first_loaded (load : String → Option FontBytes) (text : String)
    (htext : text ≠ "")
    (hnone : ∀ m ∈ (fontManagerOf load).fontPriority, ¬ clearsThreshold m text) :
    ((fontManagerOf load).loadedFonts = [] →
      getBestFontForText (fontManagerOf load) text = none) ∧
    (∀ firstFont rest, (fontManagerOf load).fontPriority = firstFont :: rest →
      ∃ bytes, (fontManagerOf load).loadedFonts.lookup firstFont = some bytes ∧
        getBestFontForText (fontManagerOf load) text = some bytes) := by
  apply getBest_fallback
  apply findClearingFont_eq_none
  intro m hm
  cases hcb : clearsBool m (textCodePoints text) with
  | false => rfl
  | true => exact absurd ((clearsThreshold_iff m text htext).mpr hcb) (hnone m hm)

/-- Concrete instance of C4: an Arabic letter is outside every catalog
range, so with both fonts loaded the fallback picks the priority head
`NotoSansSC`, and with no fonts loaded the selection is the sentinel. -/
theorem c4_fallback_first_loaded_witness :
    (∃ bytes, (fontManagerOf loadAllFonts).loadedFonts.lookup "NotoSansSC" = some bytes ∧
      getBestFontForText (fontManagerOf loadAllFonts) "ع" = some bytes) ∧
    getBestFontForText (fontManagerOf loadNoFonts) "ع" = none := by
  constructor
  · exact (c4_fallback_first_loaded loadAllFonts "ع" (by decide)
      (by
        intro m hm
        rw [show (fontManagerOf loadAllFonts).fontPriority = ["NotoSansSC", "DejaVuSans"]
          from rfl] at hm
        rw [clearsThreshold_iff m "ع" (by decide)]
        fin_cases hm <;> decide)).2 "NotoSansSC" ["DejaVuSans"] rfl
  · exact (c4_fallback_first_loaded loadNoFonts "ع" (by decide)
      (by
        intro m hm
        rw [show (fontManagerOf loadNoFonts).fontPriority = [] from rfl] at hm
        exact absurd hm (List.not_mem_nil m))).1 rfl

/-- Claim C5: the loaded-font set is a subset of the static catalog
(each entry is a catalog descriptor whose file loaded successfully),
and the selection only ever returns bytes recorded in the loaded-font
set — never a catalog font that failed to load — or the sentinel. -/
theorem c5_loaded_subset_catalog (load : String → Option FontBytes) (text : String) :
    (∀ entry ∈ (fontManagerOf load).loadedFonts,
      ∃ cfg ∈ FONT_CONFIG, cfg.name = entry.1 ∧ load cfg.file = some entry.2) ∧
    (∀ bytes, getBestFontForText (fontManagerOf load) text = some bytes →
      ∃ fontName, (fontName, bytes) ∈ (fontManagerOf load).loadedFonts) := by
  constructor
  · exact fun entry h => loadedFonts_mem_catalog load FONT_CONFIG entry h
  · intro bytes hb
    simp only [getBestFontForText] at hb
    split at hb
    · exact absurd hb (by simp)
    · split at hb
      · exact ⟨_, lookup_mem hb⟩
      · split at hb
        · exact absurd hb (by simp)
        · split at hb
          · exact absurd hb (by simp)
          · exact ⟨_, lookup_mem hb⟩

/-- Concrete instance of C5: the bytes selected for a Latin text with
both fonts loaded are the recorded bytes of some loaded font. -/
theorem c5_loaded_subset_catalog_witness :
    ∃ fontName, (fontName, ([14] : FontBytes)) ∈ (fontManagerOf loadAllFonts).loadedFonts :=
  (c5_loaded_subset_catalog loadAllFonts "Hello").2 [14] (by decide)

/-- Claim C9: `getBestFontForText` is deterministic — two calls with
identical text and identical loaded-font state (same fonts, same
priority order) return the same selection. -/
theorem c9_selection_deterministic (fm₁ fm₂ : FontManager) (text₁ text₂ : String)
    (hfonts : fm₁.loadedFonts = fm₂.loadedFonts)
    (hprio : fm₁.fontPriority = fm₂.fontPriority)
    (htext : text₁ = text₂) :
    getBestFontForText fm₁ text₁ = getBestFontForText fm₂ text₂ := by
  have hfm : fm₁ = fm₂ := by
    cases fm₁
    cases fm₂
    simp_all
  rw [hfm, htext]

/-- Concrete instance of C9 at a mixed-script text with both fonts
loaded. -/
theorem c9_selection_deterministic_witness :
    getBestFontForText (fontManagerOf loadAllFonts) "Hello 世界" =
      getBestFontForText (fontManagerOf loadAllFonts) "Hello 世界" :=
  c9_selection_deterministic (fontManagerOf loadAllFonts) (fontManagerOf loadAllFonts)
    "Hello 世界" "Hello 世界" rfl rfl rfl

/-- Claim C10: `getBestFontForText` is total on the empty string — the
0/0 coverage comparison of the source (`NaN > 0.8`) is `false` for
every font, so the priority loop never selects and the fallback branch
runs: with at least one loaded font the first loaded font is returned,
with none the sentinel, and no failure occurs. -/
theorem c10_empty_text_fallback (load : String → Option FontBytes) :
    ((fontManagerOf load).loadedFonts = [] →
      getBestFontForText (fontManagerOf load) "" = none) ∧
    (∀ firstFont rest, (fontManagerOf load).fontPriority = firstFont :: rest →
      ∃ bytes, (fontManagerOf load).loadedFonts.lookup firstFont = some bytes ∧
        getBestFontForText (fontManagerOf load) "" = some bytes) :=
  getBest_fallback load ""
    (by rw [show textCodePoints "" = [] from rfl]; exact findClearingFont_nil_cps _)

/-- Concrete instance of C10: on the empty string the fallback returns
`NotoSansSC` (the priority head) with both fonts loaded, and the
sentinel with none. -/
theorem c10_empty_text_fallback_witness :
    (∃ bytes, (fontManagerOf loadAllFonts).loadedFonts.lookup "NotoSansSC" = some bytes ∧
      getBestFontForText (fontManagerOf loadAllFonts) "" = some bytes) ∧
    getBestFontForText (fontManagerOf loadNoFonts) "" = none :=
  ⟨(c10_empty_text_fallback loadAllFonts).2 "NotoSansSC" ["DejaVuSans"] rfl,
   (c10_empty_text_fallback loadNoFonts).1 rfl⟩

/-!
Claim theorems for the conversion orchestrator.
-/

theorem convertTryBody_ok_shape (env : ConvEnv) (input : ConvertWordToPdfInput)
    (out : ConvertWordToPdfOutput) (h : convertTryBody env input = .ok out) :
    out.pdfDataUri = none ∧ ∃ msg, out.error = some msg := by
  simp only [convertTryBody] at h
  split at h
  · cases h
    exact ⟨rfl, _, rfl⟩
  · split at h
    · cases h
    · split at h
      · cases h
        exact ⟨rfl, _, rfl⟩
      · split at h
        · cases h
        · cases h

/-- Claim C2: for every input and every behaviour of the external
collaborators, `convertWordToPdfAction` settles by resolving — never by
a promise rejection — with a result whose error message is populated
and whose PDF field is not: every fatal failure is funnelled through
the `catch` (or an early `return`) into a structured error-result
value.  (The `reject` of the stream-finalization handler, lines
194-197, sits after the unconditionally-throwing line 179 and is
unreachable, so no execution exercises it.) -/
theorem c2_always_resolves_structured (env : ConvEnv) (input : ConvertWordToPdfInput) :
    ∃ msg, convertWordToPdfAction env input =
      .resolved { pdfDataUri := none, error := some msg } := by
  rw [convertWordToPdfAction]
  split
  · exact ⟨_, rfl⟩
  · cases h : convertTryBody env input with
    | ok out =>
      obtain ⟨hp, msg, he⟩ := convertTryBody_ok_shape env input out h
      refine ⟨msg, ?_⟩
      have : out = { pdfDataUri := none, error := some msg } := by
        cases out
        simp_all
      rw [this]
    | error msg => exact ⟨_, rfl⟩

/-- Claim C6: an input whose document payload decodes to zero bytes
fails with one of the two empty-input messages and produces no PDF
bytes. -/
theorem c6_empty_payload_rejected (env : ConvEnv) (input : ConvertWordToPdfInput)
    (hdecode : env.decodeBase64 input.docxFileBase64 = []) :
    ∃ msg ∈ emptyInputMessages, convertWordToPdfAction env input =
      .resolved { pdfDataUri := none, error := some msg } := by
  rw [convertWordToPdfAction]
  by_cases hb : input.docxFileBase64 == ""
  · refine ⟨"No DOCX file data provided for conversion.", by simp [emptyInputMessages], ?_⟩
    rw [if_pos hb]
  · refine ⟨"Empty DOCX file data received after base64 decoding.",
      by simp [emptyInputMessages], ?_⟩
    rw [if_neg hb]
    have hbody : convertTryBody env input =
        .ok { pdfDataUri := none
              error := some "Empty DOCX file data received after base64 decoding." } := by
      simp [convertTryBody, hdecode]
    rw [hbody]

/-- Claim C7: when the extractor returns empty or whitespace-only text
— as it does for a DOCX holding only an embedded image and no
paragraph text — the conversion fails with the no-text-content message
and produces no PDF, before any image handling. -/
theorem c7_whitespace_text_rejected (env : ConvEnv) (input : ConvertWordToPdfInput)
    (hbase : input.docxFileBase64 ≠ "")
    (hlen : (env.decodeBase64 input.docxFileBase64).length ≠ 0)
    (text : String)
    (hextract : env.extractRawText (env.decodeBase64 input.docxFileBase64) = .ok text)
    (hws : trimIsEmpty text = true) :
    convertWordToPdfAction env input =
      .resolved { pdfDataUri := none
                  error := some "No text content found in the document." } := by
  rw [convertWordToPdfAction, if_neg (by simpa using hbase)]
  have hbody : convertTryBody env input =
      .ok { pdfDataUri := none
            error := some "No text content found in the document." } := by
    simp only [convertTryBody]
    rw [if_neg hlen, hextract]
    simp [hws]
  rw [hbody]

/-- Claim C1 (divergence record): an input that the claim says must
round-trip — non-empty payload, extraction succeeding with ASCII,
non-whitespace text, no images — instead produces an error and no PDF
bytes.  `convertWordToPdfAction` calls `this.processTextWithFonts`
(line 179) from a plain module-level function where `this` is
`undefined`, so every such conversion throws a `TypeError` that the
`catch` wraps into the generic conversion-failure message. -/
theorem c1_ascii_roundtrip_fails (env : ConvEnv) (input : ConvertWordToPdfInput)
    (hbase : input.docxFileBase64 ≠ "")
    (hlen : (env.decodeBase64 input.docxFileBase64).length ≠ 0)
    (text : String)
    (hextract : env.extractRawText (env.decodeBase64 input.docxFileBase64) = .ok text)
    (_hascii : ∀ c ∈ text.data, c.toNat < 128)
    (hws : trimIsEmpty text = false)
    (himg : env.extractImages (env.decodeBase64 input.docxFileBase64) = .ok []) :
    convertWordToPdfAction env input =
      .resolved { pdfDataUri := none
                  error := some ("Failed to convert Word document. " ++
                    "Cannot read properties of undefined (reading \x27processTextWithFonts\x27)") } := by
  rw [convertWordToPdfAction, if_neg (by simpa using hbase)]
  have hbody : convertTryBody env input =
      .error "Cannot read properties of undefined (reading \x27processTextWithFonts\x27)" := by
    simp only [convertTryBody]
    rw [if_neg hlen, hextract]
    simp only [hws, Bool.false_eq_true, if_false]
    rw [himg]
  rw [hbody]
  rfl

/-- Concrete instance of C6: a non-empty base64 string decoding to zero
bytes yields an empty-input error and no PDF. -/
theorem c6_empty_payload_rejected_witness :
    ∃ msg ∈ emptyInputMessages, convertWordToPdfAction envEmptyDecode
      { docxFileBase64 := "AAAA", originalFileName := "doc.docx" } =
      .resolved { pdfDataUri := none, error := some msg } :=
  c6_empty_payload_rejected envEmptyDecode
    { docxFileBase64 := "AAAA", originalFileName := "doc.docx" } rfl

/-- Concrete instance of C7: whitespace-only extracted text yields the
no-text-content error and no PDF. -/
theorem c7_whitespace_text_rejected_witness :
    convertWordToPdfAction envWhitespaceText
      { docxFileBase64 := "UEs=", originalFileName := "image-only.docx" } =
      .resolved { pdfDataUri := none
                  error := some "No text content found in the document." } :=
  c7_whitespace_text_rejected envWhitespaceText
    { docxFileBase64 := "UEs=", originalFileName := "image-only.docx" }
    (by decide) (by decide) "  \n  " rfl (by decide)

/-- Concrete instance of the C1 divergence: an ASCII-only, image-free
document is converted to an error result, not to a PDF. -/
theorem c1_ascii_roundtrip_fails_witness :
    convertWordToPdfAction envAsciiDoc
      { docxFileBase64 := "UEs=", originalFileName := "hello.docx" } =
      .resolved { pdfDataUri := none
                  error := some ("Failed to convert Word document. " ++
                    "Cannot read properties of undefined (reading \x27processTextWithFonts\x27)") } :=
  c1_ascii_roundtrip_fails envAsciiDoc
    { docxFileBase64 := "UEs=", originalFileName := "hello.docx" }
    (by decide) (by decide) "Hello World" rfl (by decide) (by decide) rfl

/-!
Claim theorem for the per-image renderer.
-/

theorem modifyLastPage_append (f : PdfPage → PdfPage) (xs : List PdfPage) (p : PdfPage) :
    modifyLastPage f (xs ++ [p]) = xs ++ [f p] := by
  induction xs with
  | nil => rfl
  | cons x rest ih =>
    cases rest with
    | nil => rfl
    | cons y ys =>
      have hstep : modifyLastPage f (x :: ((y :: ys) ++ [p])) =
          x :: modifyLastPage f ((y :: ys) ++ [p]) := rfl
      rw [List.cons_append, hstep, ih]
      rfl

theorem processOneImage_pages (embed : List Nat → Except String Unit) (fm : FontManager)
    (st : PdfState) (img : ExtractedImage) :
    (processOneImage embed fm st img).pages = st.pages ++ [pageForImage embed fm img] := by
  simp only [processOneImage, pageForImage]
  split
  · cases hemb : embed img.buffer with
    | ok u =>
      simp [PdfState.addPage, PdfState.drawImage, modifyLastPage_append]
    | error msg =>
      simp [PdfState.addPage, PdfState.setFont, PdfState.setFontSize, PdfState.drawText,
        modifyLastPage_append]
  · simp [PdfState.addPage, PdfState.setFont, PdfState.setFontSize, PdfState.drawText,
      modifyLastPage_append]

theorem processImages_pages (embed : List Nat → Except String Unit) (fm : FontManager)
    (images : List ExtractedImage) : ∀ st : PdfState,
    (processImages embed fm st images).pages = st.pages ++ images.map (pageForImage embed fm) := by
  induction images with
  | nil =>
    intro st
    simp [processImages]
  | cons img rest ih =>
    intro st
    have hfold : processImages embed fm st (img :: rest) =
        processImages embed fm (processOneImage embed fm st img) rest := rfl
    rw [hfold, ih, processOneImage_pages]
    simp

/-- Claim C8: `processImages` never aborts — its output extends the
incoming document with exactly one page per extracted image — and an
image whose content type is not JPEG or PNG yields a page holding the
interpolated placeholder line `[Unsupported image type: ...]`, while a
JPEG/PNG whose embedding fails yields a page holding the interpolated
`[Error embedding image: ...]` placeholder instead of failing the
conversion. -/
theorem c8_unsupported_image_placeholder (embed : List Nat → Except String Unit)
    (fm : FontManager) (st : PdfState) (images : List ExtractedImage) :
    ((processImages embed fm st images).pages =
      st.pages ++ images.map (pageForImage embed fm)) ∧
    (∀ img ∈ images, img.contentType ≠ "image/jpeg" → img.contentType ≠ "image/png" →
      [PdfItem.textItem
        (getBestFontForText fm ("[Unsupported image type: " ++ img.contentType ++ "]")) 10
        ("[Unsupported image type: " ++ img.contentType ++ "]")] ∈
        (processImages embed fm st images).pages) ∧
    (∀ img ∈ images, ∀ msg, embed img.buffer = .error msg →
      (img.contentType = "image/jpeg" ∨ img.contentType = "image/png") →
      [PdfItem.textItem
        (getBestFontForText fm ("[Error embedding image: " ++ msg ++ "]")) 10
        ("[Error embedding image: " ++ msg ++ "]")] ∈
        (processImages embed fm st images).pages) := by
  refine ⟨processImages_pages embed fm images st, ?_, ?_⟩
  · intro img hmem h1 h2
    rw [processImages_pages]
    apply List.mem_append_right
    have hpage : pageForImage embed fm img =
        [PdfItem.textItem
          (getBestFontForText fm ("[Unsupported image type: " ++ img.contentType ++ "]")) 10
          ("[Unsupported image type: " ++ img.contentType ++ "]")] := by
      simp only [pageForImage]
      rw [if_neg (by simp [h1, h2])]
    rw [← hpage]
    exact List.mem_map_of_mem _ hmem
  · intro img hmem msg hemb htype
    rw [processImages_pages]
    apply List.mem_append_right
    have hpage : pageForImage embed fm img =
        [PdfItem.textItem
          (getBestFontForText fm ("[Error embedding image: " ++ msg ++ "]")) 10
          ("[Error embedding image: " ++ msg ++ "]")] := by
      simp only [pageForImage]
      rw [if_pos (by rcases htype with h | h <;> simp [h]), hemb]
    rw [← hpage]
    exact List.mem_map_of_mem _ hmem

/-- Concrete instance of C8, the spec scenario: an embedded
`image/bmp` image produces a page containing the literal placeholder
text `[Unsupported image type: image/bmp]` rather than aborting the
conversion. -/
theorem c8_unsupported_image_placeholder_witness :
    [PdfItem.textItem
      (getBestFontForText (fontManagerOf loadAllFonts) "[Unsupported image type: image/bmp]") 10
      "[Unsupported image type: image/bmp]"] ∈
      (processImages (fun _ => .ok ()) (fontManagerOf loadAllFonts)
        initialPdfState [bmpImage]).pages :=
  (c8_unsupported_image_placeholder (fun _ => .ok ()) (fontManagerOf loadAllFonts)
    initialPdfState [bmpImage]).2.1 bmpImage (List.mem_singleton.mpr rfl)
    (by decide) (by decide)
